import Mathlib

/-!
Verification of the argument-parsing engine of `argus.h` (single-header C
argument parser).  The C library builds, by preprocessor expansion over three
descriptor lists (`REQUIRED_ARGS`, `OPTIONAL_ARGS`, `BOOLEAN_ARGS`), a struct
`args_t`, a constructor `make_default_args`, and a parser `parse_args`.

The embedding below replaces the compile-time textual expansion by a runtime
schema (three descriptor lists) and a field store keyed by field name; the
control flow of `parse_args` is translated line by line:

* the `NUMBER_PARSER` family calls `strtol`/`strtoul` and fails iff `errno`
  is non-zero afterwards; on a clean run `errno` is only set by a range
  error, so `cStrtol`/`cStrtoul` report exactly the range-error flag,
* `GENERATE_LONG_OPT` / `GENERATE_LONG_BOOL` are the long-option `if`
  chains, expanded first for every optional argument (schema order) and then
  for every boolean argument (`findLongOpt` / `findLongBool`),
* the short-flag cluster `while` loop is `scanCluster`; its body — the
  expansion of `GENERATE_SHORT_OPT` for every optional argument followed by
  `GENERATE_SHORT_BOOL` for every boolean argument, ending in the
  `Invalid flag` error — is `runOptChecks` / `runBoolChecks`.

Mutations of the `args_t` struct are recorded in a write log (`Store.log`)
so that write-count properties can be stated.  The floating-point parsers of
the header are not modelled (no claim involves them).
-/

/-! ### C character and string conversion primitives (`strtol`, `strtoul`) -/

/-- C `isspace` for the default locale. -/
def isCSpace (c : Char) : Bool :=
  c = ' ' || c = '\t' || c = '\n' || c = '\r' || c = '\x0b' || c = '\x0c'

/-- Decimal digit test. -/
def isDigit10 (c : Char) : Bool :=
  '0' ≤ c && c ≤ '9'

/-- Split a character list into its longest decimal-digit prefix and the rest. -/
def takeDigits : List Char → List Char × List Char
  | [] => ([], [])
  | c :: cs =>
    if isDigit10 c then
      let (ds, rest) := takeDigits cs
      (c :: ds, rest)
    else ([], c :: cs)

/-- Value of a decimal digit string. -/
def natOfDigits (ds : List Char) : Nat :=
  ds.foldl (fun a c => a * 10 + (c.toNat - 48)) 0

/--
Common scan of `strtol`/`strtoul` in base 10: skip C whitespace, read an
optional sign, then the digit run.  Returns `none` when no digit was found
(the C functions then report value `0` and set `endptr` back to the whole
input), otherwise the sign, the magnitude and the characters after the run.
-/
def strtolScan (text : List Char) : Option (Bool × Nat × List Char) :=
  let s1 := text.dropWhile (fun c => isCSpace c)
  let (neg, s2) :=
    match s1 with
    | '-' :: t => (true, t)
    | '+' :: t => (false, t)
    | _ => (false, s1)
  let (ds, rest) := takeDigits s2
  if ds.isEmpty then none else some (neg, natOfDigits ds, rest)

def LONG_MAX : Int := 2 ^ 63 - 1
def LONG_MIN : Int := -(2 ^ 63)
def ULONG_MAX : Nat := 2 ^ 64 - 1

/-- Result of `strtol`: returned value, `endptr` position (as the remaining
suffix) and whether `errno` was set to `ERANGE`. -/
structure CStrtolOut where
  value : Int
  rest : String
  rangeErr : Bool
deriving DecidableEq, Repr

/-- `strtol(text, endptr, 10)` on an LP64 platform (64-bit `long`). -/
def cStrtol (text : String) : CStrtolOut :=
  match strtolScan text.data with
  | none => ⟨0, text, false⟩
  | some (neg, m, rest) =>
    let v : Int := if neg then -(m : Int) else (m : Int)
    if v > LONG_MAX then ⟨LONG_MAX, ⟨rest⟩, true⟩
    else if v < LONG_MIN then ⟨LONG_MIN, ⟨rest⟩, true⟩
    else ⟨v, ⟨rest⟩, false⟩

/-- Result of `strtoul`. -/
structure CStrtoulOut where
  value : Nat
  rest : String
  rangeErr : Bool
deriving DecidableEq, Repr

/-- `strtoul(text, endptr, 10)`: a leading minus negates the converted value
modulo `ULONG_MAX + 1`; `ERANGE` only when the magnitude overflows. -/
def cStrtoul (text : String) : CStrtoulOut :=
  match strtolScan text.data with
  | none => ⟨0, text, false⟩
  | some (neg, m, rest) =>
    if m > ULONG_MAX then ⟨ULONG_MAX, ⟨rest⟩, true⟩
    else
      let v := if neg then (2 ^ 64 - m % 2 ^ 64) % 2 ^ 64 else m
      ⟨v, ⟨rest⟩, false⟩

/-- The C cast `(int)` of a `long` value: wrap to signed 32 bits. -/
def toInt32 (v : Int) : Int :=
  let r := v % (2 ^ 32 : Int)
  if r < 2 ^ 31 then r else r - 2 ^ 32

/-- The C cast `(unsigned int)` of an `unsigned long` value. -/
def toUInt32n (v : Nat) : Nat := v % 2 ^ 32

/-! ### Values, parsers (`parse_str`, `parse_char`, `parse_int`, `parse_uint`) -/

/-- A value stored in an `args_t` field.  The `char*` null pointer of an
unparsed required string field is modelled as the empty string. -/
inductive Value where
  | vstr (s : String)
  | vchar (c : Char)
  | vint (i : Int)
  | vuint (n : Nat)
  | vbool (b : Bool)
deriving DecidableEq, Repr

/-- Output of one C value parser call: the error code (`return 1` vs
`return 0`), the value written through `out` (written even when the parser
then fails), and the `advance` output (`none` models the parser storing
`NULL`). -/
structure ParseOut where
  err : Bool
  val : Value
  adv : Option String
deriving DecidableEq, Repr

/-- The registry parsers used by the claims.  The remaining integer parsers
of the header follow the same `NUMBER_PARSER` shape as `pint`/`puint`; the
floating-point parsers are not modelled. -/
inductive ValParser where
  | pstr
  | pchar
  | pint
  | puint
deriving DecidableEq, Repr

/-- Run a registry parser: `parse_str` stores the text and a `NULL` advance;
`parse_char` stores `text[0]` and advances one character; `parse_int` /
`parse_uint` convert with `strtol`/`strtoul`, store the cast result, set the
advance to `endptr`, and fail iff `errno` (range error) was raised. -/
def runValParser : ValParser → String → ParseOut
  | .pstr, text => ⟨false, .vstr text, none⟩
  | .pchar, text => ⟨false, .vchar (text.data.headD '\x00'), some ⟨text.data.tail⟩⟩
  | .pint, text =>
    let r := cStrtol text
    ⟨r.rangeErr, .vint (toInt32 r.value), some r.rest⟩
  | .puint, text =>
    let r := cStrtoul text
    ⟨r.rangeErr, .vuint (toUInt32n r.value), some r.rest⟩

/-- The `(type)0` initialisation of a required field in `make_default_args`. -/
def zeroVal : ValParser → Value
  | .pstr => .vstr ""
  | .pchar => .vchar '\x00'
  | .pint => .vint 0
  | .puint => .vuint 0

/-! ### Schema (the three descriptor lists) -/

/-- One `REQUIRED_ARG(type, name, label, description, parser)` entry
(display metadata omitted: the engine does not read it). -/
structure ReqSpec where
  name : String
  pfun : ValParser
deriving DecidableEq, Repr

/-- One `OPTIONAL_ARG(type, name, shortopt, longopt, arg_label, default,
description, formatter, parser)` entry; `none` models the `NONE` sentinel. -/
structure OptSpec where
  name : String
  short : Option Char
  long : Option String
  dflt : Value
  pfun : ValParser
deriving DecidableEq, Repr

/-- One `BOOLEAN_ARG(name, shortopt, longopt, description)` entry. -/
structure BoolSpec where
  name : String
  short : Option Char
  long : Option String
deriving DecidableEq, Repr

/-- The three descriptor lists a consumer declares before including the
header. -/
structure Schema where
  required : List ReqSpec
  optional : List OptSpec
  booleans : List BoolSpec
deriving DecidableEq, Repr

/-! ### The `args_t` store -/

/-- Update the binding of `n` in a field list (fields exist from
construction; writing an unknown name is a no-op, which cannot happen for
engine-generated writes). -/
def assocSet : List (String × Value) → String → Value → List (String × Value)
  | [], _, _ => []
  | (k, w) :: rest, n, v =>
    if k = n then (k, v) :: rest else (k, w) :: assocSet rest n v

/-- The `args_t` struct, plus a log of the field names written, in order,
used to state write-count properties. -/
structure Store where
  fields : List (String × Value)
  log : List String
deriving DecidableEq, Repr

/-- One assignment `args->name = v`. -/
def setArg (st : Store) (n : String) (v : Value) : Store :=
  ⟨assocSet st.fields n v, st.log ++ [n]⟩

/-- Read a field of the store. -/
def getField (st : Store) (n : String) : Option Value :=
  (st.fields.find? (fun p => p.fst = n)).map (fun p => p.snd)

/-- `make_default_args`: required fields at `(type)0`, optional fields at
their declared default, boolean fields at `false`; nothing written yet. -/
def makeDefaultArgs (sch : Schema) : Store :=
  ⟨sch.required.map (fun r => (r.name, zeroVal r.pfun))
    ++ sch.optional.map (fun o => (o.name, o.dflt))
    ++ sch.booleans.map (fun b => (b.name, Value.vbool false)),
   []⟩

/-! ### Errors (§7 taxonomy, one kind per `return 1` site of `parse_args`) -/

inductive PError where
  /-- `!argc || !argv`. -/
  | nullArgs
  /-- `argc < 1 + REQUIRED_ARG_COUNT`. -/
  | missingRequired
  /-- a value parser returned non-zero for the named argument. -/
  | invalidValue (arg : String)
  /-- a value-taking option (given as displayed, e.g. `--threads` or `-t`)
  had no value. -/
  | optionRequiresValue (opt : String)
  /-- a long-option value token was not consumed entirely. -/
  | trailingUnparsed (opt : String) (raw : String)
  /-- `Invalid flag`: no short option matched the cluster remainder. -/
  | unknownFlag (rest : String)
  /-- `Invalid argument`: non-option token in the options phase. -/
  | unexpectedArgument (tok : String)
  /-- artefact of the bounded cluster loop; never returned for the fuel the
  engine supplies. -/
  | outOfFuel
deriving DecidableEq, Repr

/-! ### Short-flag cluster scanning -/

/-- Result of one pass over the cluster-loop body: an error return, or
`continue` with the updated store and `curr_flag` (`none` models the parser
having set `curr_flag` to `NULL`). -/
inductive Outcome where
  | oerr (e : PError) (st : Store)
  | onext (st : Store) (cf : Option String)
deriving DecidableEq, Repr

/-- The store carried by an outcome. -/
def outStore : Outcome → Store
  | .oerr _ st => st
  | .onext st _ => st

/-- The `GENERATE_SHORT_BOOL` chain: first boolean whose short option equals
`*curr_flag` sets its field, advances one character and continues; if none
matches the body ends in the `Invalid flag` error. -/
def runBoolChecks : List BoolSpec → Store → String → Outcome
  | [], st, s => .oerr (.unknownFlag s) st
  | b :: bs, st, s =>
    match b.short with
    | some c =>
      if s.data.head? = some c then
        .onext (setArg st b.name (.vbool true)) (some ⟨s.data.tail⟩)
      else runBoolChecks bs st s
    | none => runBoolChecks bs st s

/-- The `GENERATE_SHORT_OPT` chain followed by the boolean chain.  A
matching value option with an empty remainder errors; otherwise its parser
runs on the remainder: a parser error returns, full consumption continues
the cluster loop, and partial consumption falls through to the following
checks at the advanced position — exactly the C `if` fall-through. -/
def runOptChecks : List OptSpec → List BoolSpec → Store → String → Outcome
  | [], bools, st, s => runBoolChecks bools st s
  | o :: os, bools, st, s =>
    match o.short with
    | some c =>
      if s.data.head? = some c then
        if (⟨s.data.tail⟩ : String) = "" then
          .oerr (.optionRequiresValue ("-" ++ String.singleton c)) st
        else
          let out := runValParser o.pfun ⟨s.data.tail⟩
          let st' := setArg st o.name out.val
          if out.err then .oerr (.invalidValue o.name) st'
          else
            match out.adv with
            | none => .onext st' none
            | some r => if r = "" then .onext st' (some r) else runOptChecks os bools st' r
      else runOptChecks os bools st s
    | none => runOptChecks os bools st s

/-- The body of `GENERATE_SHORT_OPT` for a value option `o` whose short
character `c` matched `*curr_flag`, with `os` the optional descriptors that
follow it in the expansion.  `runOptChecks` takes exactly this branch at a
match; stated as `runOptChecks_cons_match` below. -/
def handleShortOpt (o : OptSpec) (c : Char) (os : List OptSpec) (bools : List BoolSpec)
    (st : Store) (s : String) : Outcome :=
  if (⟨s.data.tail⟩ : String) = "" then
    .oerr (.optionRequiresValue ("-" ++ String.singleton c)) st
  else
    let out := runValParser o.pfun ⟨s.data.tail⟩
    let st' := setArg st o.name out.val
    if out.err then .oerr (.invalidValue o.name) st'
    else
      match out.adv with
      | none => .onext st' none
      | some r => if r = "" then .onext st' (some r) else runOptChecks os bools st' r

/-- The cluster `while` loop: run the body until `curr_flag` is `NULL` or
empty.  The loop is bounded by fuel; the engine supplies `|cluster| + 1`,
which the built-in parsers (whose advance is always a suffix of their input)
never exhaust. -/
def scanCluster : Nat → List OptSpec → List BoolSpec → Store → Option String →
    Option PError × Store
  | _, _, _, st, none => (none, st)
  | 0, _, _, st, some s => if s = "" then (none, st) else (some .outOfFuel, st)
  | fuel + 1, opts, bools, st, some s =>
    if s = "" then (none, st)
    else
      match runOptChecks opts bools st s with
      | .oerr e st' => (some e, st')
      | .onext st' cf' => scanCluster fuel opts bools st' cf'

/-! ### Long options and the options loop -/

/-- The `GENERATE_LONG_OPT` `strcmp` chain: first optional argument whose
long form `--longopt` equals the token. -/
def findLongOpt : List OptSpec → String → Option OptSpec
  | [], _ => none
  | o :: os, tok =>
    match o.long with
    | some l => if tok = "--" ++ l then some o else findLongOpt os tok
    | none => findLongOpt os tok

/-- The `GENERATE_LONG_BOOL` `strcmp` chain. -/
def findLongBool : List BoolSpec → String → Option BoolSpec
  | [], _ => none
  | b :: bs, tok =>
    match b.long with
    | some l => if tok = "--" ++ l then some b else findLongBool bs tok
    | none => findLongBool bs tok

/-- The `for` loop over `argv[1 + REQUIRED_ARG_COUNT .. argc-1]`: long value
options (which consume the following token as their value), then long
booleans, then the short-flag cluster branch for tokens starting with `-`,
else the `Invalid argument` error. -/
def optionsLoop (sch : Schema) : List String → Store → Option PError × Store
  | [], st => (none, st)
  | t :: ts, st =>
    match findLongOpt sch.optional t with
    | some o =>
      match ts with
      | [] => (some (.optionRequiresValue t), st)
      | v :: ts' =>
        let out := runValParser o.pfun v
        let st' := setArg st o.name out.val
        if out.err then (some (.invalidValue o.name), st')
        else
          match out.adv with
          | none => optionsLoop sch ts' st'
          | some r =>
            if r = "" then optionsLoop sch ts' st'
            else (some (.trailingUnparsed t v), st')
    | none =>
      match findLongBool sch.booleans t with
      | some b => optionsLoop sch ts (setArg st b.name (.vbool true))
      | none =>
        if t.data.head? = some '-' then
          let cf : String := ⟨t.data.tail⟩
          match scanCluster (cf.length + 1) sch.optional sch.booleans st (some cf) with
          | (none, st') => optionsLoop sch ts st'
          | (some e, st') => (some e, st')
        else (some (.unexpectedArgument t), st)

/-! ### Required phase and `parse_args` -/

/-- Phase 1: each required descriptor, in declared order, consumes one token
and parses it with a `NULL` advance output; a parser failure (which has
already written the field) aborts. -/
def requiredPhase : List ReqSpec → List String → Store →
    Option PError × Store × List String
  | [], ts, st => (none, st, ts)
  | r :: rs, t :: ts, st =>
    let out := runValParser r.pfun t
    let st' := setArg st r.name out.val
    if out.err then (some (.invalidValue r.name), st', ts)
    else requiredPhase rs ts st'
  | _ :: _, [], st => (some .missingRequired, st, [])

/-- `parse_args(argc, argv, args)`: the null/empty check, the
`argc < 1 + REQUIRED_ARG_COUNT` check, the required phase, then the options
loop.  Returns the error (or `none` for the `0` return) together with the
final state of the caller's struct, which is mutated in place in C. -/
def parseArgs (sch : Schema) (argv : List String) (st : Store) :
    Option PError × Store :=
  match argv with
  | [] => (some .nullArgs, st)
  | _prog :: toks =>
    if toks.length < sch.required.length then (some .missingRequired, st)
    else
      match requiredPhase sch.required toks st with
      | (some e, st', _) => (some e, st')
      | (none, st', rest) => optionsLoop sch rest st'

/-! ### Concrete schemas from the examples and the claims -/

/-- The schema of `examples/01_file_processor.c`: required strings `input`
and `output`, optional unsigned `threads` (`-t`/`--threads`, default 1),
boolean `help` (`-h`/`--help`). -/
def fileProcessorSchema : Schema :=
  { required := [⟨"input_file", .pstr⟩, ⟨"output_file", .pstr⟩],
    optional := [⟨"threads", some 't', some "threads", .vuint 1, .puint⟩],
    booleans := [⟨"help", some 'h', some "help"⟩] }

/-- A schema with a single required `int` positional. -/
def intReqSchema : Schema :=
  { required := [⟨"value", .pint⟩], optional := [], booleans := [] }

/-- A schema in which the character `f` is both a boolean short flag and a
value-taking short flag (declared boolean first). -/
def dupShortSchema : Schema :=
  { required := [],
    optional := [⟨"fval", some 'f', none, .vuint 0, .puint⟩],
    booleans := [⟨"fbool", some 'f', none⟩] }

/-- Boolean flags `v`, `x` and unsigned value flag `t` (§8 clustering test). -/
def clusterSchema : Schema :=
  { required := [],
    optional := [⟨"t", some 't', none, .vuint 0, .puint⟩],
    booleans := [⟨"v", some 'v', none⟩, ⟨"x", some 'x', none⟩] }

/-- Boolean `-v` plus value-taking `--threads`. -/
def threadsVerboseSchema : Schema :=
  { required := [],
    optional := [⟨"threads", some 't', some "threads", .vuint 1, .puint⟩],
    booleans := [⟨"verbose", some 'v', none⟩] }

/-! ### Helper lemmas -/

theorem string_data_append (s t : String) : (s ++ t).data = s.data ++ t.data := rfl

theorem dash_ne_longTok (l : String) : ("-" : String) ≠ "--" ++ l := by
  intro h
  have h2 : ("-" : String).data = ("--" ++ l).data := by rw [h]
  rw [string_data_append] at h2
  simp at h2

theorem dashChar_ne_longTok (c : Char) (hc : c ≠ '-') (l : String) :
    ("-" ++ String.singleton c : String) ≠ "--" ++ l := by
  intro h
  have h2 : ("-" ++ String.singleton c : String).data = ("--" ++ l).data := by rw [h]
  rw [string_data_append, string_data_append] at h2
  simp [String.singleton] at h2
  exact hc h2.1

theorem findLongOpt_eq_none (opts : List OptSpec) (tok : String)
    (h : ∀ l : String, tok ≠ "--" ++ l) : findLongOpt opts tok = none := by
  induction opts with
  | nil => rfl
  | cons o os ih =>
    simp only [findLongOpt]
    match ho : o.long with
    | some l => simp [h l, ih]
    | none => exact ih

theorem findLongBool_eq_none (bs : List BoolSpec) (tok : String)
    (h : ∀ l : String, tok ≠ "--" ++ l) : findLongBool bs tok = none := by
  induction bs with
  | nil => rfl
  | cons b bs ih =>
    simp only [findLongBool]
    match hb : b.long with
    | some l => simp [h l, ih]
    | none => exact ih

theorem dash_data : ("-" : String).data = ['-'] := rfl

theorem empty_mk : (⟨[]⟩ : String) = "" := rfl

/-- A lone `-` token: no long form matches, the cluster it introduces is the
empty string, so the `while` loop exits at once and the loop moves on. -/
theorem optionsLoop_dash_skip (sch : Schema) (ts : List String) (st : Store) :
    optionsLoop sch ("-" :: ts) st = optionsLoop sch ts st := by
  simp only [optionsLoop, findLongOpt_eq_none sch.optional "-" dash_ne_longTok,
    findLongBool_eq_none sch.booleans "-" dash_ne_longTok, dash_data]
  simp [scanCluster, empty_mk]

theorem singleton_data (c : Char) : (String.singleton c).data = [c] := rfl

theorem mk_data (l : List Char) : (String.mk l).data = l := rfl

/-- Reaching a value-taking short option at the end of a cluster: when the
remaining cluster is the single matching character, the body hits the
`curr_flag[1] == '\0'` branch of `GENERATE_SHORT_OPT` and errors before any
write. -/
theorem runOptChecks_singleton_requires_value (opts : List OptSpec) (bools : List BoolSpec)
    (st : Store) (c : Char) (h : ∃ o ∈ opts, o.short = some c) :
    runOptChecks opts bools st ⟨[c]⟩
      = .oerr (.optionRequiresValue ("-" ++ String.singleton c)) st := by
  induction opts with
  | nil => simp at h
  | cons o os ih =>
    obtain ⟨o', ho'mem, ho'⟩ := h
    rcases List.mem_cons.mp ho'mem with h1 | h1
    · subst h1
      simp only [runOptChecks, ho']
      simp [empty_mk, mk_data]
    · simp only [runOptChecks]
      cases hs : o.short with
      | none => exact ih ⟨o', h1, ho'⟩
      | some c' =>
        by_cases hc : c' = c
        · subst hc
          simp [empty_mk, mk_data]
        · have hne : ¬ ((⟨[c]⟩ : String).data.head? = some c') := by
            simp [mk_data, Ne.symm hc]
          have hcc : ¬ c = c' := fun hx => hc hx.symm
          simp [hcc]
          exact ih ⟨o', h1, ho'⟩

/-- Bare `-c` for a value-taking short option `c`: the parse step fails with
the option-requires-value error, the store is untouched, and the following
tokens are never consulted. -/
theorem optionsLoop_bare_short_value_errors (sch : Schema) (st : Store) (c : Char)
    (ts : List String) (hc : c ≠ '-') (h : ∃ o ∈ sch.optional, o.short = some c) :
    optionsLoop sch (("-" ++ String.singleton c) :: ts) st
      = (some (.optionRequiresValue ("-" ++ String.singleton c)), st) := by
  have hdata : ("-" ++ String.singleton c : String).data = ['-', c] := by
    rw [string_data_append]; rfl
  have hne : (⟨[c]⟩ : String) ≠ "" := by simp [String.ext_iff, mk_data]
  have hscan : scanCluster 2 sch.optional sch.booleans st
      (some ⟨[c]⟩) = (some (.optionRequiresValue ("-" ++ String.singleton c)), st) := by
    simp [scanCluster, hne,
      runOptChecks_singleton_requires_value sch.optional sch.booleans st c h]
  simp only [optionsLoop,
    findLongOpt_eq_none sch.optional _ (dashChar_ne_longTok c hc),
    findLongBool_eq_none sch.booleans _ (dashChar_ne_longTok c hc), hdata]
  simp [hscan]

/-- A value-taking long option as the last token: the `i + 1 >= argc` check
fires before any parser runs, so the error is reported with the store
exactly as it was when the token was reached. -/
theorem optionsLoop_long_missing_value (sch : Schema) (st : Store) (t : String) (o : OptSpec)
    (h : findLongOpt sch.optional t = some o) :
    optionsLoop sch [t] st = (some (.optionRequiresValue t), st) := by
  simp [optionsLoop, h]

/-- A long-option value token the parser did not consume entirely
(`next_char != NULL && *next_char != '\0'`): the parse fails with the
trailing-unparsed error (the field itself has already been written by the
parser, as in the C code). -/
theorem optionsLoop_long_trailing (sch : Schema) (st : Store) (t v r : String)
    (ts : List String) (o : OptSpec) (h : findLongOpt sch.optional t = some o)
    (herr : (runValParser o.pfun v).err = false)
    (hadv : (runValParser o.pfun v).adv = some r) (hr : r ≠ "") :
    optionsLoop sch (t :: v :: ts) st
      = (some (.trailingUnparsed t v), setArg st o.name (runValParser o.pfun v).val) := by
  simp [optionsLoop, h, herr, hadv, hr]

/-- At a matching head character, `runOptChecks` takes exactly the
`GENERATE_SHORT_OPT` branch of the matching value option. -/
theorem runOptChecks_cons_match (o : OptSpec) (c : Char) (os : List OptSpec)
    (bools : List BoolSpec) (st : Store) (s : String)
    (ho : o.short = some c) (hs : s.data.head? = some c) :
    runOptChecks (o :: os) bools st s = handleShortOpt o c os bools st s := by
  simp [runOptChecks, handleShortOpt, ho, hs]

/-- A non-matching or short-less value option is skipped. -/
theorem runOptChecks_cons_skip (o : OptSpec) (c : Char) (os : List OptSpec)
    (bools : List BoolSpec) (st : Store) (s : String)
    (ho : o.short ≠ some c) (hs : s.data.head? = some c) :
    runOptChecks (o :: os) bools st s = runOptChecks os bools st s := by
  cases hsc : o.short with
  | none => simp [runOptChecks, hsc]
  | some c' =>
    have hcc : ¬ c = c' := fun hx => ho (by rw [hsc, hx])
    simp [runOptChecks, hsc, hs, hcc]

/-- In the cluster-loop body, value-taking short options are tested before
boolean short options: whenever the current character matches any value
option, the body's action is the `GENERATE_SHORT_OPT` branch of the first
matching value option — in particular a boolean bound to the same character
is not consulted at this position. -/
theorem runOptChecks_value_options_first (opts : List OptSpec) (bools : List BoolSpec)
    (st : Store) (s : String) (c : Char) (hs : s.data.head? = some c)
    (h : ∃ o ∈ opts, o.short = some c) :
    ∃ pre o os, opts = pre ++ o :: os ∧ (∀ o' ∈ pre, o'.short ≠ some c) ∧
      o.short = some c ∧
      runOptChecks opts bools st s = handleShortOpt o c os bools st s := by
  induction opts with
  | nil => simp at h
  | cons o os ih =>
    by_cases ho : o.short = some c
    · exact ⟨[], o, os, rfl, by simp, ho, runOptChecks_cons_match o c os bools st s ho hs⟩
    · obtain ⟨o', h1, h2⟩ := h
      rcases List.mem_cons.mp h1 with he | he
      · exact absurd (he ▸ h2) ho
      · obtain ⟨pre, o'', os'', heq, hpre, hsh, hrun⟩ := ih ⟨o', he, h2⟩
        refine ⟨o :: pre, o'', os'', by rw [heq]; simp, ?_, hsh, ?_⟩
        · intro x hx
          rcases List.mem_cons.mp hx with hxo | hxp
          · exact fun hxx => ho (hxo ▸ hxx)
          · exact hpre x hxp
        · rw [runOptChecks_cons_skip o c os bools st s ho hs, hrun]

theorem setArg_log (st : Store) (n : String) (v : Value) :
    (setArg st n v).log = st.log ++ [n] := rfl

theorem findLongOpt_mem (opts : List OptSpec) (t : String) (o : OptSpec)
    (h : findLongOpt opts t = some o) : o ∈ opts := by
  induction opts with
  | nil => simp [findLongOpt] at h
  | cons o' os ih =>
    simp only [findLongOpt] at h
    cases hl : o'.long with
    | none => rw [hl] at h; exact List.mem_cons_of_mem o' (ih h)
    | some l =>
      rw [hl] at h
      dsimp only at h
      by_cases ht : t = "--" ++ l
      · rw [if_pos ht] at h
        cases h
        exact List.mem_cons_self _ _
      · rw [if_neg ht] at h
        exact List.mem_cons_of_mem o' (ih h)

theorem findLongBool_mem (bs : List BoolSpec) (t : String) (b : BoolSpec)
    (h : findLongBool bs t = some b) : b ∈ bs := by
  induction bs with
  | nil => simp [findLongBool] at h
  | cons b' bs ih =>
    simp only [findLongBool] at h
    cases hl : b'.long with
    | none => rw [hl] at h; exact List.mem_cons_of_mem b' (ih h)
    | some l =>
      rw [hl] at h
      dsimp only at h
      by_cases ht : t = "--" ++ l
      · rw [if_pos ht] at h
        cases h
        exact List.mem_cons_self _ _
      · rw [if_neg ht] at h
        exact List.mem_cons_of_mem b' (ih h)

/-- Every write performed by the boolean chain is to a boolean field of the
chain. -/
theorem runBoolChecks_log (bs : List BoolSpec) (st : Store) (s : String) :
    ∃ ext, (outStore (runBoolChecks bs st s)).log = st.log ++ ext ∧
      ∀ x ∈ ext, ∃ b ∈ bs, b.name = x := by
  induction bs with
  | nil => exact ⟨[], by simp [runBoolChecks, outStore], by simp⟩
  | cons b bs ih =>
    cases hb : b.short with
    | none =>
      obtain ⟨ext, h1, h2⟩ := ih
      refine ⟨ext, by simpa [runBoolChecks, hb] using h1, ?_⟩
      intro x hx
      obtain ⟨b', hm, hn⟩ := h2 x hx
      exact ⟨b', List.mem_cons_of_mem b hm, hn⟩
    | some c =>
      by_cases hs : s.data.head? = some c
      · refine ⟨[b.name], by simp [runBoolChecks, hb, hs, outStore, setArg], ?_⟩
        intro x hx
        simp at hx
        subst hx
        exact ⟨b, List.mem_cons_self b bs, rfl⟩
      · obtain ⟨ext, h1, h2⟩ := ih
        refine ⟨ext, by simpa [runBoolChecks, hb, hs] using h1, ?_⟩
        intro x hx
        obtain ⟨b', hm, hn⟩ := h2 x hx
        exact ⟨b', List.mem_cons_of_mem b hm, hn⟩

/-- Every write performed by a matched `GENERATE_SHORT_OPT` branch is to the
matched option's field or comes from the checks that follow it. -/
theorem handleShortOpt_log (o : OptSpec) (c : Char) (os : List OptSpec)
    (bools : List BoolSpec) (st : Store) (s : String)
    (ih : ∀ (st' : Store) (r : String), ∃ ext,
      (outStore (runOptChecks os bools st' r)).log = st'.log ++ ext ∧
      ∀ x ∈ ext, (∃ o' ∈ os, o'.name = x) ∨ (∃ b ∈ bools, b.name = x)) :
    ∃ ext, (outStore (handleShortOpt o c os bools st s)).log = st.log ++ ext ∧
      ∀ x ∈ ext, (∃ o' ∈ o :: os, o'.name = x) ∨ (∃ b ∈ bools, b.name = x) := by
  unfold handleShortOpt
  by_cases h0 : (⟨s.data.tail⟩ : String) = ""
  · rw [if_pos h0]
    exact ⟨[], by simp [outStore], by simp⟩
  · rw [if_neg h0]
    dsimp only
    by_cases herr : (runValParser o.pfun ⟨s.data.tail⟩).err = true
    · rw [if_pos herr]
      refine ⟨[o.name], by simp [outStore, setArg], ?_⟩
      intro x hx
      simp at hx
      subst hx
      exact .inl ⟨o, List.mem_cons_self _ _, rfl⟩
    · rw [if_neg herr]
      cases hadv : (runValParser o.pfun ⟨s.data.tail⟩).adv with
      | none =>
        refine ⟨[o.name], by simp [outStore, setArg], ?_⟩
        intro x hx
        simp at hx
        subst hx
        exact .inl ⟨o, List.mem_cons_self _ _, rfl⟩
      | some r =>
        dsimp only
        by_cases hr : r = ""
        · rw [if_pos hr]
          refine ⟨[o.name], by simp [outStore, setArg], ?_⟩
          intro x hx
          simp at hx
          subst hx
          exact .inl ⟨o, List.mem_cons_self _ _, rfl⟩
        · rw [if_neg hr]
          obtain ⟨ext, h1, h2⟩ := ih (setArg st o.name (runValParser o.pfun ⟨s.data.tail⟩).val) r
          refine ⟨o.name :: ext, ?_, ?_⟩
          · rw [h1, setArg_log]
            simp
          · intro x hx
            rcases List.mem_cons.mp hx with hx1 | hx1
            · subst hx1
              exact .inl ⟨o, List.mem_cons_self _ _, rfl⟩
            · rcases h2 x hx1 with ⟨o', hm, hn⟩ | hb
              · exact .inl ⟨o', List.mem_cons_of_mem o hm, hn⟩
              · exact .inr hb

/-- Every write performed by one pass over the cluster-loop body is to a
field of a value or boolean descriptor of the schema. -/
theorem runOptChecks_log (opts : List OptSpec) (bools : List BoolSpec) :
    ∀ (st : Store) (s : String), ∃ ext,
      (outStore (runOptChecks opts bools st s)).log = st.log ++ ext ∧
      ∀ x ∈ ext, (∃ o ∈ opts, o.name = x) ∨ (∃ b ∈ bools, b.name = x) := by
  induction opts with
  | nil =>
    intro st s
    obtain ⟨ext, h1, h2⟩ := runBoolChecks_log bools st s
    exact ⟨ext, by simpa [runOptChecks] using h1, fun x hx => .inr (h2 x hx)⟩
  | cons o os ih =>
    intro st s
    cases ho : o.short with
    | none =>
      obtain ⟨ext, h1, h2⟩ := ih st s
      refine ⟨ext, by simpa [runOptChecks, ho] using h1, ?_⟩
      intro x hx
      rcases h2 x hx with ⟨o', hm, hn⟩ | hb
      · exact .inl ⟨o', List.mem_cons_of_mem o hm, hn⟩
      · exact .inr hb
    | some c =>
      by_cases hs : s.data.head? = some c
      · rw [runOptChecks_cons_match o c os bools st s ho hs]
        exact handleShortOpt_log o c os bools st s ih
      · have hskip : runOptChecks (o :: os) bools st s = runOptChecks os bools st s := by
          simp [runOptChecks, ho, hs]
        rw [hskip]
        obtain ⟨ext, h1, h2⟩ := ih st s
        refine ⟨ext, h1, ?_⟩
        intro x hx
        rcases h2 x hx with ⟨o', hm, hn⟩ | hb
        · exact .inl ⟨o', List.mem_cons_of_mem o hm, hn⟩
        · exact .inr hb

/-- Every write performed by the whole cluster `while` loop is to a value or
boolean field. -/
theorem scanCluster_log (opts : List OptSpec) (bools : List BoolSpec) :
    ∀ (fuel : Nat) (st : Store) (cf : Option String), ∃ ext,
      ((scanCluster fuel opts bools st cf).snd).log = st.log ++ ext ∧
      ∀ x ∈ ext, (∃ o ∈ opts, o.name = x) ∨ (∃ b ∈ bools, b.name = x) := by
  intro fuel
  induction fuel with
  | zero =>
    intro st cf
    refine ⟨[], ?_, by simp⟩
    cases cf with
    | none => simp [scanCluster]
    | some s =>
      by_cases hs : s = "" <;> simp [scanCluster, hs]
  | succ fuel ih =>
    intro st cf
    cases cf with
    | none => exact ⟨[], by simp [scanCluster], by simp⟩
    | some s =>
      by_cases hs : s = ""
      · exact ⟨[], by simp [scanCluster, hs], by simp⟩
      · cases hout : runOptChecks opts bools st s with
        | oerr e st' =>
          obtain ⟨ext, h1, h2⟩ := runOptChecks_log opts bools st s
          rw [hout] at h1
          simp only [outStore] at h1
          exact ⟨ext, by simp [scanCluster, hs, hout, h1], h2⟩
        | onext st' cf' =>
          obtain ⟨ext, h1, h2⟩ := runOptChecks_log opts bools st s
          rw [hout] at h1
          simp only [outStore] at h1
          obtain ⟨ext', h1', h2'⟩ := ih st' cf'
          refine ⟨ext ++ ext', ?_, ?_⟩
          · simp only [scanCluster, hs, hout, if_false]
            rw [h1', h1, List.append_assoc]
          · intro x hx
            rcases List.mem_append.mp hx with hx1 | hx1
            · exact h2 x hx1
            · exact h2' x hx1

/-- Every write performed by the options loop (phase 2) is to a field of a
value or boolean descriptor of the schema (bounded-length auxiliary form,
since the loop consumes two tokens for a long option with a value). -/
theorem optionsLoop_log_aux (sch : Schema) :
    ∀ (n : Nat) (ts : List String), ts.length ≤ n → ∀ (st : Store), ∃ ext,
      ((optionsLoop sch ts st).snd).log = st.log ++ ext ∧
      ∀ x ∈ ext, (∃ o ∈ sch.optional, o.name = x) ∨ (∃ b ∈ sch.booleans, b.name = x) := by
  intro n
  induction n with
  | zero =>
    intro ts hlen st
    rw [List.length_eq_zero.mp (Nat.le_zero.mp hlen)]
    exact ⟨[], by simp [optionsLoop], by simp⟩
  | succ n ihn =>
    intro ts hlen st
    cases ts with
    | nil => exact ⟨[], by simp [optionsLoop], by simp⟩
    | cons t ts =>
      have hts : ts.length ≤ n := by
        simp at hlen
        omega
      cases hfo : findLongOpt sch.optional t with
      | some o =>
        have hom : o ∈ sch.optional := findLongOpt_mem _ _ _ hfo
        cases ts with
        | nil => exact ⟨[], by simp [optionsLoop, hfo], by simp⟩
        | cons v ts' =>
          have hts' : ts'.length ≤ n := by
            simp at hlen
            omega
          simp only [optionsLoop, hfo]
          by_cases herr : (runValParser o.pfun v).err = true
          · rw [if_pos herr]
            refine ⟨[o.name], by simp [setArg], ?_⟩
            intro x hx
            simp at hx
            subst hx
            exact .inl ⟨o, hom, rfl⟩
          · rw [if_neg herr]
            cases hadv : (runValParser o.pfun v).adv with
            | none =>
              obtain ⟨ext, h1, h2⟩ := ihn ts' hts' (setArg st o.name (runValParser o.pfun v).val)
              refine ⟨o.name :: ext, ?_, ?_⟩
              · dsimp only
                rw [h1, setArg_log]
                simp
              · intro x hx
                rcases List.mem_cons.mp hx with hx1 | hx1
                · subst hx1
                  exact .inl ⟨o, hom, rfl⟩
                · exact h2 x hx1
            | some r =>
              dsimp only
              by_cases hr : r = ""
              · rw [if_pos hr]
                obtain ⟨ext, h1, h2⟩ := ihn ts' hts' (setArg st o.name (runValParser o.pfun v).val)
                refine ⟨o.name :: ext, by rw [h1, setArg_log]; simp, ?_⟩
                intro x hx
                rcases List.mem_cons.mp hx with hx1 | hx1
                · subst hx1
                  exact .inl ⟨o, hom, rfl⟩
                · exact h2 x hx1
              · rw [if_neg hr]
                refine ⟨[o.name], by simp [setArg], ?_⟩
                intro x hx
                simp at hx
                subst hx
                exact .inl ⟨o, hom, rfl⟩
      | none =>
        cases hfb : findLongBool sch.booleans t with
        | some b =>
          have hbm : b ∈ sch.booleans := findLongBool_mem _ _ _ hfb
          simp only [optionsLoop, hfo, hfb]
          obtain ⟨ext, h1, h2⟩ := ihn ts hts (setArg st b.name (.vbool true))
          refine ⟨b.name :: ext, by rw [h1, setArg_log]; simp, ?_⟩
          intro x hx
          rcases List.mem_cons.mp hx with hx1 | hx1
          · subst hx1
            exact .inr ⟨b, hbm, rfl⟩
          · exact h2 x hx1
        | none =>
          simp only [optionsLoop, hfo, hfb]
          by_cases hd : t.data.head? = some '-'
          · rw [if_pos hd]
            obtain ⟨ext, h1, h2⟩ :=
              scanCluster_log sch.optional sch.booleans
                ((⟨t.data.tail⟩ : String).length + 1) st (some ⟨t.data.tail⟩)
            rcases hsc : scanCluster ((⟨t.data.tail⟩ : String).length + 1)
                sch.optional sch.booleans st (some ⟨t.data.tail⟩) with ⟨res, st'⟩
            rw [hsc] at h1
            cases res with
            | none =>
              obtain ⟨ext', h1', h2'⟩ := ihn ts hts st'
              simp only [Prod.snd] at h1
              refine ⟨ext ++ ext', ?_, ?_⟩
              · dsimp only
                rw [h1', h1, List.append_assoc]
              · intro x hx
                rcases List.mem_append.mp hx with hx1 | hx1
                · exact h2 x hx1
                · exact h2' x hx1
            | some e =>
              refine ⟨ext, ?_, h2⟩
              dsimp only
              simpa using h1
          · rw [if_neg hd]
            exact ⟨[], by simp, by simp⟩

/-- Every write performed by the options loop (phase 2) is to a field of a
value or boolean descriptor of the schema. -/
theorem optionsLoop_log (sch : Schema) (ts : List String) (st : Store) :
    ∃ ext, ((optionsLoop sch ts st).snd).log = st.log ++ ext ∧
      ∀ x ∈ ext, (∃ o ∈ sch.optional, o.name = x) ∨ (∃ b ∈ sch.booleans, b.name = x) :=
  optionsLoop_log_aux sch ts.length ts (Nat.le_refl _) st

/-- On a successful required phase, the writes are exactly one per required
descriptor, in declared order. -/
theorem requiredPhase_log_of_success (rs : List ReqSpec) :
    ∀ (ts : List String) (st st' : Store) (rest : List String),
      requiredPhase rs ts st = (none, st', rest) →
      st'.log = st.log ++ rs.map ReqSpec.name := by
  induction rs with
  | nil =>
    intro ts st st' rest h
    simp [requiredPhase] at h
    rw [← h.1]
    simp
  | cons r rs ih =>
    intro ts st st' rest h
    cases ts with
    | nil => simp [requiredPhase] at h
    | cons t ts =>
      simp only [requiredPhase] at h
      by_cases herr : (runValParser r.pfun t).err = true
      · rw [if_pos herr] at h
        simp at h
      · rw [if_neg herr] at h
        have := ih ts (setArg st r.name (runValParser r.pfun t).val) st' rest h
        rw [this, setArg_log]
        simp

/-- On a successful parse, a required field (whose name no optional or
boolean descriptor shares — the §3 uniqueness invariant) is written exactly
once. -/
theorem parse_success_required_written_once (sch : Schema) (argv : List String) (r : ReqSpec)
    (hnodup : (sch.required.map ReqSpec.name).Nodup) (hr : r ∈ sch.required)
    (hopt : ∀ o ∈ sch.optional, o.name ≠ r.name)
    (hbool : ∀ b ∈ sch.booleans, b.name ≠ r.name)
    (hok : (parseArgs sch argv (makeDefaultArgs sch)).fst = none) :
    ((parseArgs sch argv (makeDefaultArgs sch)).snd).log.count r.name = 1 := by
  cases argv with
  | nil => simp [parseArgs] at hok
  | cons prog toks =>
    by_cases hlen : toks.length < sch.required.length
    · simp [parseArgs, hlen] at hok
    · rcases hreq : requiredPhase sch.required toks (makeDefaultArgs sch) with ⟨oe, st', rest⟩
      cases oe with
      | some e => simp [parseArgs, hlen, hreq] at hok
      | none =>
        have hpa : parseArgs sch (prog :: toks) (makeDefaultArgs sch)
            = optionsLoop sch rest st' := by
          simp [parseArgs, hlen, hreq]
        rw [hpa]
        have hlog : st'.log = sch.required.map ReqSpec.name := by
          have := requiredPhase_log_of_success sch.required toks (makeDefaultArgs sch) st' rest hreq
          simpa [makeDefaultArgs] using this
        obtain ⟨ext, h1, h2⟩ := optionsLoop_log sch rest st'
        rw [h1, hlog, List.count_append]
        have hc1 : (sch.required.map ReqSpec.name).count r.name = 1 :=
          List.count_eq_one_of_mem hnodup (List.mem_map_of_mem _ hr)
        have hc0 : ext.count r.name = 0 := by
          rw [List.count_eq_zero]
          intro hmem
          rcases h2 _ hmem with ⟨o, hm, hn⟩ | ⟨b, hm, hn⟩
          · exact hopt o hm hn
          · exact hbool b hm hn
        rw [hc1, hc0]

/-- A required `int` positional accepts any token whose `strtol` conversion
raises no range error — trailing non-numeric characters included — and the
field receives the converted prefix value. -/
theorem intReq_accepts_any_nonrange_token (t : String)
    (h : (cStrtol t).rangeErr = false) :
    parseArgs intReqSchema ["prog", t] (makeDefaultArgs intReqSchema)
      = (none, setArg (makeDefaultArgs intReqSchema) "value"
          (.vint (toInt32 (cStrtol t).value))) := by
  simp [parseArgs, intReqSchema, requiredPhase, runValParser, h, optionsLoop,
    makeDefaultArgs]

/-! ### Claims -/

/-- C1: for the file-processor schema (required strings `input`,`output`;
optional unsigned `threads`, short `t`, long `threads`, default 1; boolean
`help`, short `h`): `["prog","in.txt","out.txt","-t4"]` parses successfully
with `input="in.txt"`, `output="out.txt"`, `threads=4`, `help=false`;
`["prog","in.txt"]` fails with the missing-required-argument error; and
`["prog","in.txt","out.txt","-h"]` parses successfully with `help=true`. -/
theorem claim_C1_end_to_end :
    ((parseArgs fileProcessorSchema ["prog", "in.txt", "out.txt", "-t4"]
        (makeDefaultArgs fileProcessorSchema)).fst = none
      ∧ getField (parseArgs fileProcessorSchema ["prog", "in.txt", "out.txt", "-t4"]
          (makeDefaultArgs fileProcessorSchema)).snd "input_file" = some (.vstr "in.txt")
      ∧ getField (parseArgs fileProcessorSchema ["prog", "in.txt", "out.txt", "-t4"]
          (makeDefaultArgs fileProcessorSchema)).snd "output_file" = some (.vstr "out.txt")
      ∧ getField (parseArgs fileProcessorSchema ["prog", "in.txt", "out.txt", "-t4"]
          (makeDefaultArgs fileProcessorSchema)).snd "threads" = some (.vuint 4)
      ∧ getField (parseArgs fileProcessorSchema ["prog", "in.txt", "out.txt", "-t4"]
          (makeDefaultArgs fileProcessorSchema)).snd "help" = some (.vbool false))
    ∧ (parseArgs fileProcessorSchema ["prog", "in.txt"]
        (makeDefaultArgs fileProcessorSchema)).fst = some .missingRequired
    ∧ ((parseArgs fileProcessorSchema ["prog", "in.txt", "out.txt", "-h"]
        (makeDefaultArgs fileProcessorSchema)).fst = none
      ∧ getField (parseArgs fileProcessorSchema ["prog", "in.txt", "out.txt", "-h"]
          (makeDefaultArgs fileProcessorSchema)).snd "help" = some (.vbool true)) := by
  decide

/-- C2 counterexample: in a schema where `f` is both a boolean short flag
(declared among the booleans) and a value-taking short flag, the token
`-f4` is parsed through the VALUE option (`fval = 4`, success) and the
boolean `fbool` stays `false` — the claim predicts the boolean
interpretation is chosen, which would set `fbool` and reject `4`. -/
theorem claim_C2_counterexample :
    parseArgs dupShortSchema ["prog", "-f4"] (makeDefaultArgs dupShortSchema)
      = (none, ⟨[("fval", .vuint 4), ("fbool", .vbool false)], ["fval"]⟩) := by
  decide

/-- C2 (amended): at every character position of a short-flag cluster,
VALUE-TAKING short options are tested before boolean short options, each
group in schema declaration order, and the first match wins; in particular,
when the same character is both a boolean and a value-taking short option,
the value-taking interpretation is chosen: the body's outcome is the
`GENERATE_SHORT_OPT` branch of the first matching value option. -/
theorem claim_C2_amended (opts : List OptSpec) (bools : List BoolSpec) (st : Store)
    (s : String) (c : Char) (hs : s.data.head? = some c)
    (h : ∃ o ∈ opts, o.short = some c) :
    ∃ pre o os, opts = pre ++ o :: os ∧ (∀ o' ∈ pre, o'.short ≠ some c) ∧
      o.short = some c ∧
      runOptChecks opts bools st s = handleShortOpt o c os bools st s :=
  runOptChecks_value_options_first opts bools st s c hs h

/-- C2 witness: the amended claim instantiated for the duplicated-short
schema at cluster state `f4`. -/
theorem claim_C2_witness :
    (("f4" : String).data.head? = some 'f')
    ∧ (∃ o ∈ dupShortSchema.optional, o.short = some 'f')
    ∧ (∃ pre o os, dupShortSchema.optional = pre ++ o :: os
        ∧ (∀ o' ∈ pre, o'.short ≠ some 'f') ∧ o.short = some 'f'
        ∧ runOptChecks dupShortSchema.optional dupShortSchema.booleans
            (makeDefaultArgs dupShortSchema) "f4"
          = handleShortOpt o 'f' os dupShortSchema.booleans
              (makeDefaultArgs dupShortSchema) "f4") :=
  ⟨by decide, by decide,
    claim_C2_amended dupShortSchema.optional dupShortSchema.booleans
      (makeDefaultArgs dupShortSchema) "f4" 'f' (by decide) (by decide)⟩

/-- C3: code behaviour at the failing input.  For a required `int`
positional given the text `"abc"`, `strtol` performs no conversion, returns
`0` and does not set `errno`, so `parse_int` reports success: the parse
SUCCEEDS with the field set to `0` instead of failing with an invalid-value
error as the specification requires. -/
theorem claim_C3_code_behavior :
    parseArgs intReqSchema ["prog", "abc"] (makeDefaultArgs intReqSchema)
      = (none, ⟨[("value", Value.vint 0)], ["value"]⟩) := by
  decide

/-- C4: with boolean short flags `v`, `x` and unsigned value flag `t`, the
single options-phase token `-vxt4` sets `v = true`, `x = true`, `t = 4` and
the parse succeeds. -/
theorem claim_C4_clustering :
    (optionsLoop clusterSchema ["-vxt4"] (makeDefaultArgs clusterSchema)).fst = none
    ∧ getField (optionsLoop clusterSchema ["-vxt4"]
        (makeDefaultArgs clusterSchema)).snd "v" = some (.vbool true)
    ∧ getField (optionsLoop clusterSchema ["-vxt4"]
        (makeDefaultArgs clusterSchema)).snd "x" = some (.vbool true)
    ∧ getField (optionsLoop clusterSchema ["-vxt4"]
        (makeDefaultArgs clusterSchema)).snd "t" = some (.vuint 4) := by
  decide

/-- C5 counterexample: with boolean `-v` and value-taking `--threads`, the
input `["prog","-v","--threads"]` fails with the option-requires-value
error, but the container IS mutated: `verbose` was set to `true` by the
earlier token (its default is `false`), refuting "does not mutate any
field". -/
theorem claim_C5_counterexample :
    parseArgs threadsVerboseSchema ["prog", "-v", "--threads"]
        (makeDefaultArgs threadsVerboseSchema)
      = (some (.optionRequiresValue "--threads"),
         ⟨[("threads", .vuint 1), ("verbose", .vbool true)], ["verbose"]⟩)
    ∧ makeDefaultArgs threadsVerboseSchema
      = ⟨[("threads", .vuint 1), ("verbose", .vbool false)], []⟩ := by
  decide

/-- C5 (amended): when a token matching a value-taking long option is the
last token, the parse fails with the option-requires-value error and the
handling of that token writes no field — the store is exactly as it was
when the token was reached (fields may already have been mutated by earlier
tokens, as the counterexample shows). -/
theorem claim_C5_amended (sch : Schema) (st : Store) (t : String) (o : OptSpec)
    (h : findLongOpt sch.optional t = some o) :
    optionsLoop sch [t] st = (some (.optionRequiresValue t), st) :=
  optionsLoop_long_missing_value sch st t o h

/-- C5 witness: `--threads` as final token for the threads/verbose schema. -/
theorem claim_C5_witness :
    (findLongOpt threadsVerboseSchema.optional "--threads"
        = some ⟨"threads", some 't', some "threads", .vuint 1, .puint⟩)
    ∧ optionsLoop threadsVerboseSchema ["--threads"]
        (makeDefaultArgs threadsVerboseSchema)
      = (some (.optionRequiresValue "--threads"),
         makeDefaultArgs threadsVerboseSchema) :=
  ⟨by decide,
    claim_C5_amended threadsVerboseSchema (makeDefaultArgs threadsVerboseSchema)
      "--threads" ⟨"threads", some 't', some "threads", .vuint 1, .puint⟩ (by decide)⟩

/-- C6: when a value-taking long option's parser reports through its
advance output that it left a non-empty remainder of the value token, the
parse fails with the trailing-unparsed error; a partially consumed
long-option value is never accepted (the field write the parser already
performed is visible in the returned store, as in the C code). -/
theorem claim_C6_trailing_rejected (sch : Schema) (st : Store) (t v r : String)
    (ts : List String) (o : OptSpec) (h : findLongOpt sch.optional t = some o)
    (herr : (runValParser o.pfun v).err = false)
    (hadv : (runValParser o.pfun v).adv = some r) (hr : r ≠ "") :
    optionsLoop sch (t :: v :: ts) st
      = (some (.trailingUnparsed t v), setArg st o.name (runValParser o.pfun v).val) :=
  optionsLoop_long_trailing sch st t v r ts o h herr hadv hr

/-- C6 witness: `--threads 4abc` for the file-processor schema; `strtoul`
stops at `abc`, so the parse fails with the trailing-unparsed error. -/
theorem claim_C6_witness :
    (findLongOpt fileProcessorSchema.optional "--threads"
        = some ⟨"threads", some 't', some "threads", .vuint 1, .puint⟩)
    ∧ ((runValParser ValParser.puint "4abc").err = false)
    ∧ ((runValParser ValParser.puint "4abc").adv = some "abc")
    ∧ ("abc" : String) ≠ ""
    ∧ optionsLoop fileProcessorSchema ["--threads", "4abc"]
        (makeDefaultArgs fileProcessorSchema)
      = (some (.trailingUnparsed "--threads" "4abc"),
         setArg (makeDefaultArgs fileProcessorSchema) "threads"
           (runValParser ValParser.puint "4abc").val) :=
  ⟨by decide, by decide, by decide, by decide,
    claim_C6_trailing_rejected fileProcessorSchema
      (makeDefaultArgs fileProcessorSchema) "--threads" "4abc" "abc" []
      ⟨"threads", some 't', some "threads", .vuint 1, .puint⟩
      (by decide) (by decide) (by decide) (by decide)⟩

/-- C7: a value-taking short option reached with an empty remainder (the
bare token `-c`) fails immediately with the option-requires-value error:
the store is returned untouched and the following tokens — universally
quantified here — are never consumed as the value. -/
theorem claim_C7_no_next_token_value (sch : Schema) (st : Store) (c : Char)
    (ts : List String) (hc : c ≠ '-') (h : ∃ o ∈ sch.optional, o.short = some c) :
    optionsLoop sch (("-" ++ String.singleton c) :: ts) st
      = (some (.optionRequiresValue ("-" ++ String.singleton c)), st) :=
  optionsLoop_bare_short_value_errors sch st c ts hc h

/-- C7 witness: bare `-t` followed by a would-be value token `5`, which is
not consumed. -/
theorem claim_C7_witness :
    ('t' ≠ '-')
    ∧ (∃ o ∈ threadsVerboseSchema.optional, o.short = some 't')
    ∧ optionsLoop threadsVerboseSchema (("-" ++ String.singleton 't') :: ["5"])
        (makeDefaultArgs threadsVerboseSchema)
      = (some (.optionRequiresValue ("-" ++ String.singleton 't')),
         makeDefaultArgs threadsVerboseSchema) :=
  ⟨by decide, by decide,
    claim_C7_no_next_token_value threadsVerboseSchema
      (makeDefaultArgs threadsVerboseSchema) 't' ["5"] (by decide) (by decide)⟩

/-- C8 counterexample: "each field is mutated exactly once per parse pass"
fails in both directions for optional/boolean fields.  The file-processor
parse of `["prog","a","b"]` succeeds with the `help` field written zero
times (the write log holds only the two required fields), and the parse of
`["prog","a","b","-h","-h"]` succeeds with `help` written twice. -/
theorem claim_C8_counterexample :
    ((parseArgs fileProcessorSchema ["prog", "a", "b"]
        (makeDefaultArgs fileProcessorSchema)).fst = none
      ∧ (parseArgs fileProcessorSchema ["prog", "a", "b"]
          (makeDefaultArgs fileProcessorSchema)).snd.log
        = ["input_file", "output_file"]
      ∧ ((parseArgs fileProcessorSchema ["prog", "a", "b"]
          (makeDefaultArgs fileProcessorSchema)).snd.log.count "help") = 0)
    ∧ ((parseArgs fileProcessorSchema ["prog", "a", "b", "-h", "-h"]
        (makeDefaultArgs fileProcessorSchema)).fst = none
      ∧ ((parseArgs fileProcessorSchema ["prog", "a", "b", "-h", "-h"]
          (makeDefaultArgs fileProcessorSchema)).snd.log.count "help") = 2) := by
  decide

/-- C8 (amended): on every successful parse, each REQUIRED field — whose
name, by the §3 uniqueness invariant, no optional or boolean descriptor
shares — is written exactly once by the parsing engine. -/
theorem claim_C8_amended (sch : Schema) (argv : List String) (r : ReqSpec)
    (hnodup : (sch.required.map ReqSpec.name).Nodup) (hr : r ∈ sch.required)
    (hopt : ∀ o ∈ sch.optional, o.name ≠ r.name)
    (hbool : ∀ b ∈ sch.booleans, b.name ≠ r.name)
    (hok : (parseArgs sch argv (makeDefaultArgs sch)).fst = none) :
    ((parseArgs sch argv (makeDefaultArgs sch)).snd).log.count r.name = 1 :=
  parse_success_required_written_once sch argv r hnodup hr hopt hbool hok

/-- C8 witness: the `input_file` field of the file-processor schema is
written exactly once on the successful parse of
`["prog","in.txt","out.txt","-t4"]`. -/
theorem claim_C8_witness :
    ((fileProcessorSchema.required.map ReqSpec.name).Nodup)
    ∧ ((⟨"input_file", .pstr⟩ : ReqSpec) ∈ fileProcessorSchema.required)
    ∧ (∀ o ∈ fileProcessorSchema.optional, o.name ≠ "input_file")
    ∧ (∀ b ∈ fileProcessorSchema.booleans, b.name ≠ "input_file")
    ∧ ((parseArgs fileProcessorSchema ["prog", "in.txt", "out.txt", "-t4"]
        (makeDefaultArgs fileProcessorSchema)).fst = none)
    ∧ ((parseArgs fileProcessorSchema ["prog", "in.txt", "out.txt", "-t4"]
        (makeDefaultArgs fileProcessorSchema)).snd).log.count "input_file" = 1 :=
  ⟨by decide, by decide, by decide, by decide, by decide,
    claim_C8_amended fileProcessorSchema ["prog", "in.txt", "out.txt", "-t4"]
      ⟨"input_file", .pstr⟩ (by decide) (by decide) (by decide) (by decide) (by decide)⟩

/-- C9: a required `int` positional is parsed with a `NULL` advance output,
so any token whose `strtol` conversion raises no range error is accepted —
a valid numeric prefix with trailing non-numeric characters included — and
the field receives the value of the prefix; the trailing characters are
silently ignored. -/
theorem claim_C9_prefix_accepted (t : String) (h : (cStrtol t).rangeErr = false) :
    parseArgs intReqSchema ["prog", t] (makeDefaultArgs intReqSchema)
      = (none, setArg (makeDefaultArgs intReqSchema) "value"
          (.vint (toInt32 (cStrtol t).value))) :=
  intReq_accepts_any_nonrange_token t h

/-- C9 witness: the token `4abc` is accepted and the field becomes `4`. -/
theorem claim_C9_witness :
    ((cStrtol "4abc").rangeErr = false)
    ∧ parseArgs intReqSchema ["prog", "4abc"] (makeDefaultArgs intReqSchema)
      = (none, ⟨[("value", Value.vint 4)], ["value"]⟩) :=
  ⟨by decide, (claim_C9_prefix_accepted "4abc" (by decide)).trans (by decide)⟩

/-- C10: a lone `-` token in the options phase is accepted silently for
every schema: it matches no long form, the cluster it introduces is empty,
so the `while` loop body never runs — no field is written, no error is
reported, and parsing continues exactly as if the token were absent. -/
theorem claim_C10_lone_dash (sch : Schema) (ts : List String) (st : Store) :
    optionsLoop sch ("-" :: ts) st = optionsLoop sch ts st :=
  optionsLoop_dash_skip sch ts st
